import Mathlib

/-!
Verification of the backup engine of `cat-ate-my-source-code`:
a shallow embedding of `src/core/fileSystem.ts` (FileSystem: pattern
matching and the recursive, exclusion-aware directory copy) and
`src/core/backupPlan.ts` (BackupPlan: backup ids, listing, retention,
create and restore), with theorems settling the specification claims.

Strings are modelled as Lean `String` (a wrapper around `List Char`),
JavaScript numbers as `Nat` (all quantities involved are non-negative
integers), and the filesystem side effects of an operation as an explicit
list of actions the operation would perform.
-/

namespace CatBackup

/-! ## String helpers mirroring the JavaScript primitives used by the source -/

/-- One step list form of JavaScript `String.prototype.replace` with a global
literal pattern: scan left to right, replace each non-overlapping occurrence
of `target`, never rescanning replacement text.  `fuel` is an upper bound on
the number of scan steps; every call site passes the length of the scanned
list, which suffices because each step consumes at least one character
whenever `target` is non-empty. -/
def jsReplaceAux (target repl : List Char) : Nat → List Char → List Char
  | _, [] => []
  | 0, l => l
  | fuel + 1, c :: cs =>
    if target.isPrefixOf (c :: cs) then
      repl ++ jsReplaceAux target repl fuel ((c :: cs).drop target.length)
    else
      c :: jsReplaceAux target repl fuel cs

/-- JavaScript `s.replace(/target/g, repl)` for a literal `target`. -/
def jsReplaceAll (s target repl : String) : String :=
  ⟨jsReplaceAux target.toList repl.toList s.toList.length s.toList⟩

/-- JavaScript `s.includes(pat)`: `pat` occurs contiguously in `s`. -/
def includesSub (pat : List Char) : List Char → Bool
  | [] => pat.isEmpty
  | c :: cs => pat.isPrefixOf (c :: cs) || includesSub pat cs

/-! ## FileSystem.matchesPattern (src/core/fileSystem.ts lines 107-119)

The source builds a regular expression from the pattern by the replacement
chain `** ↦ {{DOUBLE_STAR}}`, `* ↦ [^/]*`, `{{DOUBLE_STAR}} ↦ .*`, `. ↦ \.`
(the braces are written with `\x7b`/`\x7d` escapes below) and tests the
whole path against `^...$`, falling back to a literal substring check.

Because the last step escapes every dot, including the dot produced for
`**` in the previous step, the regex source emitted for a pattern without
backslashes (the path normalisation has already replaced them) consists
only of literal characters, `\.` escapes, `[^/]` classes, and `*`
quantifiers.  `tokenizeRegex`/`rmatchFuel` interpret exactly that fragment
with JavaScript regex semantics (a `*` quantifies the preceding atom);
regex metacharacters the translation never emits are treated as literal
characters. -/

/-- Atoms of the regex fragment produced by the glob translation. -/
inductive RTok where
  | lit (c : Char)
  | litStar (c : Char)
  | nonSlash
  | nonSlashStar
deriving DecidableEq

/-- Parse the emitted regex source into atoms, binding a following `*`
quantifier to the preceding atom as JavaScript does. -/
def tokenizeRegex : List Char → List RTok
  | [] => []
  | '\\' :: c :: '*' :: rest => .litStar c :: tokenizeRegex rest
  | '\\' :: c :: rest => .lit c :: tokenizeRegex rest
  | '[' :: '^' :: '/' :: ']' :: '*' :: rest => .nonSlashStar :: tokenizeRegex rest
  | '[' :: '^' :: '/' :: ']' :: rest => .nonSlash :: tokenizeRegex rest
  | c :: '*' :: rest => .litStar c :: tokenizeRegex rest
  | c :: rest => .lit c :: tokenizeRegex rest

/-- Anchored matching of a token list against a character list.  `fuel`
bounds the recursion; each recursive call shrinks `toks.length + s.length`,
so `toks.length + s.length + 1` steps always suffice. -/
def rmatchFuel : Nat → List RTok → List Char → Bool
  | 0, _, _ => false
  | fuel + 1, toks, s =>
    match toks, s with
    | [], [] => true
    | [], _ :: _ => false
    | .lit _ :: _, [] => false
    | .lit c :: ts, x :: xs => decide (x = c) && rmatchFuel fuel ts xs
    | .nonSlash :: _, [] => false
    | .nonSlash :: ts, x :: xs => decide (x ≠ '/') && rmatchFuel fuel ts xs
    | .litStar _ :: ts, [] => rmatchFuel fuel ts []
    | .litStar c :: ts, x :: xs =>
      rmatchFuel fuel ts (x :: xs) || (decide (x = c) && rmatchFuel fuel (.litStar c :: ts) xs)
    | .nonSlashStar :: ts, [] => rmatchFuel fuel ts []
    | .nonSlashStar :: ts, x :: xs =>
      rmatchFuel fuel ts (x :: xs) || (decide (x ≠ '/') && rmatchFuel fuel (.nonSlashStar :: ts) xs)

/-- `new RegExp("^" + src + "$").test(s)` for the emitted fragment. -/
def regexTest (toks : List RTok) (s : List Char) : Bool :=
  rmatchFuel (toks.length + s.length + 1) toks s

/-- The regex source string the code builds from a pattern (the four
`replace` calls of `matchesPattern`, in source order). -/
def globRegexSource (pattern : String) : String :=
  jsReplaceAll
    (jsReplaceAll
      (jsReplaceAll (jsReplaceAll pattern "**" "\x7b\x7bDOUBLE_STAR\x7d\x7d") "*" "[^/]*")
      "\x7b\x7bDOUBLE_STAR\x7d\x7d" ".*")
    "." "\\."

/-- `FileSystem.matchesPattern(path, pattern)`: regex test or literal
substring fallback. -/
def matchesPattern (path pattern : String) : Bool :=
  regexTest (tokenizeRegex (globRegexSource pattern).toList) path.toList ||
    includesSub pattern.toList path.toList

/-- `relativePath.replace(/\\/g, '/')`: normalise separators to `/`. -/
def normalizeSlashes (s : String) : String :=
  jsReplaceAll s "\\" "/"

/-- `FileSystem.shouldExclude(relativePath, excludePatterns)` (lines 92-105):
normalise the path and each pattern to forward slashes and return true on
the first matching pattern. -/
def shouldExclude (relativePath : String) (excludePatterns : List String) : Bool :=
  let normalizedPath := normalizeSlashes relativePath
  excludePatterns.any fun pattern => matchesPattern normalizedPath (normalizeSlashes pattern)

/-! ## Spec-side matcher (for the refinement comparison of claim C1)

The following two definitions follow the specification's words, not the
source: a pattern matches when, reading it left to right, `**` matches
zero or more path segments (any run of characters, since every run of
characters is a concatenation of `/`-separated segments, including none),
`*` matches any run of characters excluding `/`, and every other character
matches itself; or when the literal pattern occurs as a substring of the
normalized path. -/

/-- Atoms of the specification's glob rule. -/
inductive SpecTok where
  | anySegs
  | star
  | lit (c : Char)
deriving DecidableEq

/-- Read a pattern into specification atoms (`**` before `*`). -/
def specTokenize : List Char → List SpecTok
  | [] => []
  | '*' :: '*' :: rest => .anySegs :: specTokenize rest
  | '*' :: rest => .star :: specTokenize rest
  | c :: rest => .lit c :: specTokenize rest

/-- Anchored matching for the specification's glob rule, fuelled like
`rmatchFuel`. -/
def smatchFuel : Nat → List SpecTok → List Char → Bool
  | 0, _, _ => false
  | fuel + 1, toks, s =>
    match toks, s with
    | [], [] => true
    | [], _ :: _ => false
    | .lit _ :: _, [] => false
    | .lit c :: ts, x :: xs => decide (x = c) && smatchFuel fuel ts xs
    | .star :: ts, [] => smatchFuel fuel ts []
    | .star :: ts, x :: xs =>
      smatchFuel fuel ts (x :: xs) || (decide (x ≠ '/') && smatchFuel fuel (.star :: ts) xs)
    | .anySegs :: ts, [] => smatchFuel fuel ts []
    | .anySegs :: ts, x :: xs =>
      smatchFuel fuel ts (x :: xs) || smatchFuel fuel (.anySegs :: ts) xs

/-- The exclusion rule as the specification states it: glob rule over the
whole normalized path, or literal substring occurrence. -/
def specGlobExcludes (relativePath : String) (excludePatterns : List String) : Bool :=
  let normalizedPath := normalizeSlashes relativePath
  excludePatterns.any fun pattern =>
    let p := normalizeSlashes pattern
    smatchFuel ((specTokenize p.toList).length + normalizedPath.toList.length + 1)
        (specTokenize p.toList) normalizedPath.toList ||
      includesSub p.toList normalizedPath.toList

/-! ## The filesystem tree model and FileSystem.copyDirectory
(src/core/fileSystem.ts lines 19-90)

A directory listing is modelled as a list of entries; an entry is a regular
file (with its byte size, as reported by `fs.stat`), a subdirectory with
its own listing, or a `special` entry — one for which both
`entry.isDirectory()` and `entry.isFile()` return false (symbolic link,
socket, device).  `Entry`/`EntryList` are a mutual pair rather than a
nested inductive so that all functions over them are structurally
recursive.

The effects an operation would perform on the destination are returned as
an explicit list of `FsAction`s next to the `CopyStats` the source
accumulates; a run that returns no actions mutates nothing. -/

mutual
inductive Entry where
  | file (name : String) (size : Nat) : Entry
  | dir (name : String) (children : EntryList) : Entry
  | special (name : String) : Entry

inductive EntryList where
  | nil : EntryList
  | cons (e : Entry) (rest : EntryList) : EntryList
end

/-- `entry.name` of a directory entry. -/
def entryName : Entry → String
  | .file name _ => name
  | .dir name _ => name
  | .special name => name

/-- The `CopyStats` record of the source (`skipped` is its
`skippedPaths`). -/
structure CopyStats where
  filesCopied : Nat
  directoriesCreated : Nat
  bytesCopied : Nat
  skipped : List String
deriving DecidableEq

/-- A filesystem mutation the engine performs (or would perform). -/
inductive FsAction where
  | mkdirRec (path : String)
  | copyFile (src dst : String) (size : Nat)
  | rmDir (path : String)
deriving DecidableEq

/-- `path.join(a, b)` for the POSIX separator. -/
def joinPath (a b : String) : String := a ++ "/" ++ b

/-- `path.relative(rootSource, path.join(source, name))` along the walk:
the accumulated relative path of the entry, `/`-joined. -/
def childRel (rel name : String) : String :=
  if rel = "" then name else rel ++ "/" ++ name

mutual
/-- One iteration of the entry loop of `copyDirectoryRecursive`
(lines 54-89): compute the relative path, consult `shouldExclude` first
(recording the path in `skipped` and doing nothing else on a match), then
dispatch on the entry kind: directories are created (counted only when not
`dryRun`) and recursed into, files are copied (size counted only when not
`dryRun`, the copied-file counter in either mode), and entries that are
neither fall through silently. -/
def copyOneEntry (e : Entry) (rel source destination : String)
    (excludePatterns : List String) (dryRun : Bool) (stats : CopyStats) :
    CopyStats × List FsAction :=
  let name := entryName e
  let relativePath := childRel rel name
  let sourcePath := joinPath source name
  let destinationPath := joinPath destination name
  if shouldExclude relativePath excludePatterns then
    ({ stats with skipped := stats.skipped ++ [relativePath] }, [])
  else
    match e with
    | .dir _ children =>
      let base : CopyStats × List FsAction :=
        if dryRun then (stats, [])
        else ({ stats with directoriesCreated := stats.directoriesCreated + 1 },
              [.mkdirRec destinationPath])
      let rec_ := copyEntries children relativePath sourcePath destinationPath
        excludePatterns dryRun base.1
      (rec_.1, base.2 ++ rec_.2)
    | .file _ size =>
      if dryRun then
        ({ stats with filesCopied := stats.filesCopied + 1 }, [])
      else
        ({ stats with filesCopied := stats.filesCopied + 1,
                      bytesCopied := stats.bytesCopied + size },
         [.copyFile sourcePath destinationPath size])
    | .special _ => (stats, [])

/-- `copyDirectoryRecursive` over a listing: fold the loop body over the
entries in order, threading the stats and concatenating the actions. -/
def copyEntries (entries : EntryList) (rel source destination : String)
    (excludePatterns : List String) (dryRun : Bool) (stats : CopyStats) :
    CopyStats × List FsAction :=
  match entries with
  | .nil => (stats, [])
  | .cons e rest =>
    let r1 := copyOneEntry e rel source destination excludePatterns dryRun stats
    let r2 := copyEntries rest rel source destination excludePatterns dryRun r1.1
    (r2.1, r1.2 ++ r2.2)
end

/-- `FileSystem.copyDirectory(source, destination, excludePatterns, dryRun)`
(lines 19-42): zeroed stats; unless `dryRun`, create the destination root
and count it; then walk the tree from an empty relative path.  The `tree`
argument is the recursive listing of `source`. -/
def copyDirectory (tree : EntryList) (source destination : String)
    (excludePatterns : List String) (dryRun : Bool) : CopyStats × List FsAction :=
  let stats : CopyStats := ⟨0, 0, 0, []⟩
  let base : CopyStats × List FsAction :=
    if dryRun then (stats, [])
    else ({ stats with directoriesCreated := 1 }, [.mkdirRec destination])
  let walk := copyEntries tree "" source destination excludePatterns dryRun base.1
  (walk.1, base.2 ++ walk.2)

/-! ## Accumulator algebra for the copy walk

The source mutates one `stats` record in place; the embedding threads it.
The following lemmas show a walk from an arbitrary starting record equals
the walk from the zero record added on top of it, and characterise the
dry run against the real run. -/

/-- The zeroed stats record `copyDirectory` starts from. -/
def zeroStats : CopyStats := ⟨0, 0, 0, []⟩

/-- Componentwise accumulation of two stats records. -/
def addStats (s t : CopyStats) : CopyStats :=
  ⟨s.filesCopied + t.filesCopied, s.directoriesCreated + t.directoriesCreated,
   s.bytesCopied + t.bytesCopied, s.skipped ++ t.skipped⟩

/-! ## BackupPlan (src/core/backupPlan.ts)

`BackupPlan` works against targets of type `local` or `remote`; backup
records are discovered by listing the immediate subdirectories of
`<targetBase>/<projectName>`.  The embedding passes each function the
directory-listing outcome the real code would obtain from `fs.readdir`
(entries, `ENOENT`, or another error).

The sort comparator `(a, b) => b.timestamp.localeCompare(a.timestamp)` is
modelled as descending code-unit lexicographic comparison, which is what
`localeCompare` computes on the all-ASCII directory names in scope, and
the (stable, since ES2019) `Array.prototype.sort` is modelled as a stable
insertion sort — a stable sort's output is uniquely determined by the
comparator.  `target.path` is modelled in its `path.isAbsolute` branch,
the only one the data model allows: a target `basePath` is an absolute
path. -/

/-- Code-unit lexicographic order on character lists (`a ≤ b`). -/
def lexLe : List Char → List Char → Bool
  | [], _ => true
  | _ :: _, [] => false
  | a :: as, b :: bs => if a = b then lexLe as bs else decide (a < b)

/-- The `type` discriminant of a `BackupTarget` (`'local' | 'remote'`). -/
inductive TargetType where
  | localKind
  | remoteKind
deriving DecidableEq

/-- A `BackupTarget` from config: name, kind, base path. -/
structure BackupTarget where
  name : String
  type : TargetType
  path : String
deriving DecidableEq

/-- The `BackupInfo` record `listBackups` produces. -/
structure BackupInfo where
  timestamp : String
  path : String
  projectName : String
deriving DecidableEq

/-- One entry of `fs.readdir` with file types, reduced to the two facts
the source consults: its name and `isDirectory()`. -/
structure DirEntry where
  name : String
  isDirectory : Bool
deriving DecidableEq

/-- Outcome of the `fs.readdir` call on the project backup directory. -/
inductive ReadDirResult where
  | ok (entries : List DirEntry)
  | enoent
  | otherError (msg : String)
deriving DecidableEq

/-- Newest-first comparator: `a` may precede `b` when `b.timestamp` is
lexicographically at most `a.timestamp`. -/
def tsDesc (a b : BackupInfo) : Prop :=
  lexLe b.timestamp.toList a.timestamp.toList = true

instance : DecidableRel tsDesc := fun _ _ =>
  inferInstanceAs (Decidable (_ = true))

/-- The warning `listBackups` logs for a remote target. -/
def remoteListWarning : String := "Listing remote backups is not yet implemented"

/-- `BackupPlan.listBackups(target, projectName)` (lines 49-91), given the
`fs.readdir` outcome for `<target.path>/<projectName>`: a remote target is
a soft failure (empty list plus a warning); `ENOENT` yields the empty
list; any other readdir failure is rethrown; otherwise every subdirectory
entry becomes a record and the records are sorted newest first.  The
returned pair is (records, warnings logged). -/
def listBackups (target : BackupTarget) (projectName : String)
    (listing : ReadDirResult) : Except String (List BackupInfo × List String) :=
  match target.type with
  | .remoteKind => .ok ([], [remoteListWarning])
  | .localKind =>
    let projectBackupDir := joinPath target.path projectName
    match listing with
    | .enoent => .ok ([], [])
    | .otherError msg => .error ("Failed to list backups: " ++ msg)
    | .ok entries =>
      let backups := (entries.filter (·.isDirectory)).map fun e =>
        { timestamp := e.name, path := joinPath projectBackupDir e.name,
          projectName := projectName : BackupInfo }
      .ok (backups.insertionSort tsDesc, [])

/-- `BackupPlan.applyRetention(target, projectName, maxBackups, ..., dryRun)`
(lines 93-122): remote targets are a soft no-op; otherwise list the
backups (newest first) and, when there are more than `maxBackups`, report
every record past index `maxBackups` as removed — issuing the recursive
delete only when not `dryRun`.  Returns (removed storage paths, delete
actions performed). -/
def applyRetention (target : BackupTarget) (projectName : String)
    (listing : ReadDirResult) (maxBackups : Nat) (dryRun : Bool) :
    Except String (List String × List FsAction) :=
  match target.type with
  | .remoteKind => .ok ([], [])
  | .localKind =>
    match listBackups target projectName listing with
    | .error e => .error e
    | .ok (backups, _) =>
      if backups.length > maxBackups then
        let excess := backups.drop maxBackups
        .ok (excess.map (·.path), if dryRun then [] else excess.map fun b => .rmDir b.path)
      else
        .ok ([], [])

/-- `BackupPlan.getBackupPath` (lines 29-47) for an absolute target base
path: `<target.path>/<projectName>/<timestamp>`. -/
def getBackupPath (target : BackupTarget) (projectName timestamp : String) : String :=
  joinPath (joinPath target.path projectName) timestamp

/-- A validated `ProjectConfig`: name, absolute root path, optional
exclusion patterns. -/
structure ProjectConfig where
  name : String
  path : String
  exclude : Option (List String)
deriving DecidableEq

/-- The error `createBackup` throws for a non-local target. -/
def remoteUnsupportedError : String :=
  "Remote backups are not yet implemented. Use a local target."

/-- `BackupPlan.createBackup(project, target, timestamp, ..., dryRun)`
(lines 124-182): throw for a non-local target before touching anything;
otherwise derive the backup path, take the project's exclusion patterns
(defaulting to none), ensure the backup directory exists unless `dryRun`,
and copy the project tree.  Returns (backupPath, stats, actions). -/
def createBackup (project : ProjectConfig) (target : BackupTarget)
    (timestamp : String) (tree : EntryList) (dryRun : Bool) :
    Except String (String × CopyStats × List FsAction) :=
  match target.type with
  | .remoteKind => .error remoteUnsupportedError
  | .localKind =>
    let backupPath := getBackupPath target project.name timestamp
    let excludePatterns := project.exclude.getD []
    let projectPath := project.path
    let pre : List FsAction := if dryRun then [] else [.mkdirRec backupPath]
    let res := copyDirectory tree projectPath backupPath excludePatterns dryRun
    .ok (backupPath, res.1, pre ++ res.2)

/-- What `fs.stat` reports about the restore destination: an existing
directory, an existing regular file, or nothing (stat throws). -/
inductive PathKind where
  | dirKind
  | fileKind
  | missingKind
deriving DecidableEq

/-- `FileSystem.directoryExists(dirPath)` (lines 136-143): true exactly
when `stat` succeeds and reports a directory; a regular file or a failed
`stat` both answer false. -/
def directoryExists : PathKind → Bool
  | .dirKind => true
  | .fileKind => false
  | .missingKind => false

/-- The guard error `restoreBackup` throws when the destination already
exists as a directory. -/
def destinationExistsError (destination : String) : String :=
  "Destination directory already exists: " ++ destination ++
    ". Use --in-place to overwrite (not yet implemented) or choose a different destination."

/-- `BackupPlan.restoreBackup(backupPath, destination, dryRun)`
(lines 184-205): check the destination first and throw if it exists as a
directory; otherwise, unless `dryRun`, create the destination and copy the
whole backup tree into it with no exclusions.  An error result carries no
actions: nothing was written. -/
def restoreBackup (destKind : PathKind) (backupTree : EntryList)
    (backupPath destination : String) (dryRun : Bool) : Except String (List FsAction) :=
  if directoryExists destKind then
    .error (destinationExistsError destination)
  else if dryRun then
    .ok []
  else
    .ok (.mkdirRec destination :: (copyDirectory backupTree backupPath destination [] false).2)

/-- The error the restore command raises when the requested backup id is
not among the listed ones. -/
def backupNotFoundError (backupName projectName : String) : String :=
  "Backup \"" ++ backupName ++ "\" not found for project \"" ++ projectName ++
    "\". Use \x27list\x27 command to see available backups."

/-- The backup-selection step of `restoreCommand` (src/commands/restore.ts):
list the target's backups and locate the requested id, failing with a
not-found error when absent. -/
def restoreCommandLookup (target : BackupTarget) (projectName : String)
    (listing : ReadDirResult) (backupName : String) : Except String BackupInfo :=
  match listBackups target projectName listing with
  | .error e => .error e
  | .ok (backups, _) =>
    match backups.find? fun b => b.timestamp == backupName with
    | none => .error (backupNotFoundError backupName projectName)
    | some b => .ok b

/-! ## BackupPlan.generateBackupTimestamp (lines 22-27)

`new Date().toISOString().split('.')[0].replace(/:/g, '-') + 'Z'`.

The wall-clock instant is modelled as milliseconds since the Unix epoch;
`Date.prototype.toISOString` is embedded per its ECMA-262 definition for
instants from the epoch up to (not including) the year 10000, where the
format is exactly `YYYY-MM-DDTHH:mm:ss.sssZ`: UTC broken-down time (via
the standard civil-from-days conversion on the day number) with every
field zero-padded to fixed width. -/

/-- A civil (proleptic Gregorian) calendar date. -/
structure CivilDate where
  year : Nat
  month : Nat
  day : Nat
deriving DecidableEq

/-- Convert a day count since 1970-01-01 to the civil date (standard
era/day-of-era computation, valid for the range proved below). -/
def civilFromDays (days : Nat) : CivilDate :=
  let z := days + 719468
  let era := z / 146097
  let doe := z % 146097
  let yoe := (doe - doe / 1460 + doe / 36524 - doe / 146096) / 365
  let y := yoe + era * 400
  let doy := doe - (365 * yoe + yoe / 4 - yoe / 100)
  let mp := (5 * doy + 2) / 153
  let d := doy - (153 * mp + 2) / 5 + 1
  let m := if mp < 10 then mp + 3 else mp - 9
  ⟨if m ≤ 2 then y + 1 else y, m, d⟩

/-- UTC broken-down time of an epoch-milliseconds instant. -/
structure UtcParts where
  year : Nat
  month : Nat
  day : Nat
  hour : Nat
  minute : Nat
  second : Nat
  millis : Nat
deriving DecidableEq

/-- Break an epoch-milliseconds instant into UTC calendar fields. -/
def utcFromMillis (ms : Nat) : UtcParts :=
  let totalSeconds := ms / 1000
  let days := totalSeconds / 86400
  let sod := totalSeconds % 86400
  let c := civilFromDays days
  ⟨c.year, c.month, c.day, sod / 3600, sod % 3600 / 60, sod % 60, ms % 1000⟩

/-- Two-digit zero-padded decimal field. -/
def pad2 (n : Nat) : List Char := [Nat.digitChar (n / 10), Nat.digitChar (n % 10)]

/-- Three-digit zero-padded decimal field. -/
def pad3 (n : Nat) : List Char :=
  [Nat.digitChar (n / 100), Nat.digitChar (n / 10 % 10), Nat.digitChar (n % 10)]

/-- Four-digit zero-padded decimal field. -/
def pad4 (n : Nat) : List Char :=
  [Nat.digitChar (n / 1000), Nat.digitChar (n / 100 % 10),
   Nat.digitChar (n / 10 % 10), Nat.digitChar (n % 10)]

/-- `Date.prototype.toISOString`: `YYYY-MM-DDTHH:mm:ss.sssZ`. -/
def toISOString (ms : Nat) : String :=
  let t := utcFromMillis ms
  ⟨pad4 t.year ++ '-' :: (pad2 t.month ++ '-' :: (pad2 t.day ++ 'T' ::
    (pad2 t.hour ++ ':' :: (pad2 t.minute ++ ':' ::
      (pad2 t.second ++ '.' :: (pad3 t.millis ++ ['Z']))))))⟩

/-- `BackupPlan.generateBackupTimestamp()`: take the ISO string up to the
millisecond dot (`split('.')[0]`), replace every colon with a hyphen, and
append `Z`. -/
def generateBackupTimestamp (ms : Nat) : String :=
  jsReplaceAll ⟨(toISOString ms).toList.takeWhile fun c => decide (c ≠ '.')⟩ ":" "-" ++ "Z"

/-- The fixed backup-id shape `YYYY-MM-DDTHH-mm-ssZ`: six decimal fields
in fixed positions, hyphens, `T` and `Z` — and in particular no colon. -/
def isTimestampFormat (s : String) : Bool :=
  match s.toList with
  | [y1, y2, y3, y4, c1, mo1, mo2, c2, d1, d2, t, h1, h2, c3, mi1, mi2, c4, s1, s2, z] =>
    y1.isDigit && y2.isDigit && y3.isDigit && y4.isDigit && decide (c1 = '-') &&
    mo1.isDigit && mo2.isDigit && decide (c2 = '-') &&
    d1.isDigit && d2.isDigit && decide (t = 'T') &&
    h1.isDigit && h2.isDigit && decide (c3 = '-') &&
    mi1.isDigit && mi2.isDigit && decide (c4 = '-') &&
    s1.isDigit && s2.isDigit && decide (z = 'Z')
  | _ => false

/-- The date-and-time head of the ISO string, up to the millisecond dot,
as a function of whole epoch seconds. -/
def isoDateHead (sec : Nat) : List Char :=
  let sod := sec % 86400
  let c := civilFromDays (sec / 86400)
  pad4 c.year ++ '-' :: (pad2 c.month ++ '-' :: (pad2 c.day ++ 'T' ::
    (pad2 (sod / 3600) ++ ':' :: (pad2 (sod % 3600 / 60) ++ ':' :: pad2 (sod % 60)))))

/-- The character form of the generated backup id: the head with colons
replaced by hyphens, plus the trailing `Z`. -/
def backupIdChars (sec : Nat) : List Char :=
  let sod := sec % 86400
  let c := civilFromDays (sec / 86400)
  pad4 c.year ++ '-' :: (pad2 c.month ++ '-' :: (pad2 c.day ++ 'T' ::
    (pad2 (sod / 3600) ++ '-' :: (pad2 (sod % 3600 / 60) ++ '-' ::
      (pad2 (sod % 60) ++ ['Z'])))))

theorem addStats_zero_left (t : CopyStats) : addStats zeroStats t = t := by
  cases t; simp [addStats, zeroStats]

theorem addStats_assoc (a b c : CopyStats) :
    addStats (addStats a b) c = addStats a (addStats b c) := by
  cases a; cases b; cases c
  simp [addStats, Nat.add_assoc]

mutual
/-- A real-mode visit of one entry from any starting record is the visit
from the zero record accumulated onto it. -/
theorem copyOneEntry_shift (e : Entry) :
    ∀ rel src dst pats stats,
      copyOneEntry e rel src dst pats false stats =
        (addStats stats (copyOneEntry e rel src dst pats false zeroStats).1,
         (copyOneEntry e rel src dst pats false zeroStats).2) := by
  cases e with
  | file name size =>
    intro rel src dst pats stats
    cases stats
    simp only [copyOneEntry, entryName]
    split
    · simp [addStats, zeroStats]
    · simp [addStats, zeroStats]
  | special name =>
    intro rel src dst pats stats
    cases stats
    simp only [copyOneEntry, entryName]
    split
    · simp [addStats, zeroStats]
    · simp [addStats, zeroStats]
  | dir name children =>
    intro rel src dst pats stats
    simp only [copyOneEntry, entryName]
    split
    · cases stats; simp [addStats, zeroStats]
    · simp only [Bool.false_eq_true, if_false]
      rw [copyEntries_shift children _ _ _ _
            { stats with directoriesCreated := stats.directoriesCreated + 1 },
          copyEntries_shift children _ _ _ _
            { zeroStats with directoriesCreated := zeroStats.directoriesCreated + 1 }]
      cases stats
      simp [addStats, zeroStats, Nat.add_assoc, Nat.add_comm 1]

/-- List version of `copyOneEntry_shift`. -/
theorem copyEntries_shift (l : EntryList) :
    ∀ rel src dst pats stats,
      copyEntries l rel src dst pats false stats =
        (addStats stats (copyEntries l rel src dst pats false zeroStats).1,
         (copyEntries l rel src dst pats false zeroStats).2) := by
  cases l with
  | nil =>
    intro rel src dst pats stats
    cases stats
    simp [copyEntries, addStats, zeroStats]
  | cons e rest =>
    intro rel src dst pats stats
    simp only [copyEntries]
    rw [copyOneEntry_shift e rel src dst pats stats,
        copyEntries_shift rest rel src dst pats
          (addStats stats (copyOneEntry e rel src dst pats false zeroStats).1),
        copyEntries_shift rest rel src dst pats
          (copyOneEntry e rel src dst pats false zeroStats).1]
    simp [addStats_assoc]
end

mutual
/-- A dry-run visit of one entry performs no action, leaves the directory
and byte counters untouched, and adds exactly the file count and skip list
of the real run (from the zero record) to the starting record. -/
theorem copyOneEntry_dry (e : Entry) :
    ∀ rel src dst pats stats,
      copyOneEntry e rel src dst pats true stats =
        ({ stats with
            filesCopied := stats.filesCopied +
              (copyOneEntry e rel src dst pats false zeroStats).1.filesCopied,
            skipped := stats.skipped ++
              (copyOneEntry e rel src dst pats false zeroStats).1.skipped }, []) := by
  cases e with
  | file name size =>
    intro rel src dst pats stats
    cases stats
    simp only [copyOneEntry, entryName]
    split
    · simp [zeroStats]
    · simp [zeroStats]
  | special name =>
    intro rel src dst pats stats
    cases stats
    simp only [copyOneEntry, entryName]
    split
    · simp [zeroStats]
    · simp [zeroStats]
  | dir name children =>
    intro rel src dst pats stats
    simp only [copyOneEntry, entryName]
    split
    · cases stats; simp [zeroStats]
    · simp only [Bool.false_eq_true, if_false, if_true]
      rw [copyEntries_dry children _ _ _ _ stats,
          copyEntries_shift children _ _ _ _
            { zeroStats with directoriesCreated := zeroStats.directoriesCreated + 1 }]
      cases stats
      simp [addStats, zeroStats]

/-- List version of `copyOneEntry_dry`. -/
theorem copyEntries_dry (l : EntryList) :
    ∀ rel src dst pats stats,
      copyEntries l rel src dst pats true stats =
        ({ stats with
            filesCopied := stats.filesCopied +
              (copyEntries l rel src dst pats false zeroStats).1.filesCopied,
            skipped := stats.skipped ++
              (copyEntries l rel src dst pats false zeroStats).1.skipped }, []) := by
  cases l with
  | nil =>
    intro rel src dst pats stats
    cases stats
    simp [copyEntries, zeroStats]
  | cons e rest =>
    intro rel src dst pats stats
    simp only [copyEntries]
    rw [copyOneEntry_dry e rel src dst pats stats,
        copyOneEntry_shift e rel src dst pats zeroStats,
        copyEntries_dry rest rel src dst pats,
        copyEntries_shift rest rel src dst pats
          (addStats zeroStats (copyOneEntry e rel src dst pats false zeroStats).1)]
    cases stats
    simp [addStats, zeroStats, Nat.add_assoc]
end

theorem lexLe_total : ∀ x y : List Char, lexLe x y = true ∨ lexLe y x = true
  | [], _ => .inl rfl
  | _ :: _, [] => .inr rfl
  | a :: as, b :: bs => by
    by_cases hab : a = b
    · subst hab
      simpa [lexLe] using lexLe_total as bs
    · rcases lt_or_gt_of_ne hab with h | h
      · exact .inl (by simp [lexLe, hab, h])
      · exact .inr (by simp [lexLe, Ne.symm hab, h])

theorem lexLe_trans :
    ∀ x y z : List Char, lexLe x y = true → lexLe y z = true → lexLe x z = true
  | [], _, _, _, _ => rfl
  | _ :: _, [], _, hxy, _ => by simp [lexLe] at hxy
  | _ :: _, _ :: _, [], _, hyz => by simp [lexLe] at hyz
  | a :: as, b :: bs, c :: cs, hxy, hyz => by
    by_cases hab : a = b <;> by_cases hbc : b = c
    · subst hab; subst hbc
      simp only [lexLe, if_pos rfl] at hxy hyz ⊢
      exact lexLe_trans as bs cs hxy hyz
    · subst hab
      simp [lexLe, hbc] at hyz ⊢
      exact hyz
    · subst hbc
      simp [lexLe, hab] at hxy ⊢
      exact hxy
    · simp only [lexLe, if_neg hab, if_neg hbc, decide_eq_true_eq] at hxy hyz
      have hac : a < c := lt_trans hxy hyz
      simp [lexLe, ne_of_lt hac, hac]

instance : IsTotal BackupInfo tsDesc :=
  ⟨fun a b => (lexLe_total b.timestamp.toList a.timestamp.toList).elim .inl .inr⟩

instance : IsTrans BackupInfo tsDesc :=
  ⟨fun _ _ _ h1 h2 => lexLe_trans _ _ _ h2 h1⟩

/-- Whatever list `listBackups` returns successfully is pairwise
newest-first. -/
theorem listBackups_sorted (target : BackupTarget) (projectName : String)
    (listing : ReadDirResult) (bs : List BackupInfo) (ws : List String)
    (h : listBackups target projectName listing = .ok (bs, ws)) :
    bs.Pairwise tsDesc := by
  unfold listBackups at h
  match htype : target.type with
  | .remoteKind =>
    rw [htype] at h
    simp only [Except.ok.injEq, Prod.mk.injEq] at h
    rw [← h.1]
    exact List.Pairwise.nil
  | .localKind =>
    rw [htype] at h
    match listing with
    | .enoent =>
      simp only [Except.ok.injEq, Prod.mk.injEq] at h
      rw [← h.1]
      exact List.Pairwise.nil
    | .otherError msg => simp at h
    | .ok entries =>
      simp only [Except.ok.injEq, Prod.mk.injEq] at h
      rw [← h.1]
      exact List.sorted_insertionSort tsDesc _

theorem digitChar_isDigit (d : Nat) (h : d < 10) : (Nat.digitChar d).isDigit = true := by
  interval_cases d <;> decide

theorem digitChar_ne_dot (d : Nat) (h : d < 10) : Nat.digitChar d ≠ '.' := by
  interval_cases d <;> decide

theorem digitChar_ne_colon (d : Nat) (h : d < 10) : Nat.digitChar d ≠ ':' := by
  interval_cases d <;> decide

theorem civilFromDays_bounds (days : Nat) (h : days ≤ 2932896) :
    (civilFromDays days).year ≤ 9999 ∧
    1 ≤ (civilFromDays days).month ∧ (civilFromDays days).month ≤ 12 ∧
    1 ≤ (civilFromDays days).day ∧ (civilFromDays days).day ≤ 31 := by
  simp only [civilFromDays]
  split_ifs <;> refine ⟨?_, ?_, ?_, ?_, ?_⟩ <;> omega

theorem toISOString_decomp (ms : Nat) :
    (toISOString ms).toList =
      isoDateHead (ms / 1000) ++ '.' :: (pad3 (ms % 1000) ++ ['Z']) := by
  simp [toISOString, utcFromMillis, isoDateHead, List.append_assoc]

theorem isoDateHead_chars (sec : Nat) (h : sec ≤ 253402300799) :
    ∀ c ∈ isoDateHead sec, c ≠ '.' := by
  have hdays : sec / 86400 ≤ 2932896 := by omega
  obtain ⟨hy, hm1, hm2, hd1, hd2⟩ := civilFromDays_bounds (sec / 86400) hdays
  intro c hc
  simp only [isoDateHead, pad4, pad2, List.cons_append, List.nil_append,
    List.mem_cons, List.not_mem_nil, or_false] at hc
  rcases hc with rfl | rfl | rfl | rfl | rfl | rfl | rfl | rfl | rfl | rfl |
    rfl | rfl | rfl | rfl | rfl | rfl | rfl | rfl | rfl <;>
    first
      | decide
      | exact digitChar_ne_dot _ (by omega)

theorem takeWhile_append_head (p : Char → Bool) (l1 l2 : List Char) (c0 : Char)
    (h1 : ∀ c ∈ l1, p c = true) (hc : p c0 = false) :
    (l1 ++ c0 :: l2).takeWhile p = l1 := by
  induction l1 with
  | nil => simp [List.takeWhile_cons, hc]
  | cons a as ih =>
    have ha : p a = true := h1 a (List.mem_cons_self a as)
    simp [List.takeWhile_cons, ha,
      ih fun c hc2 => h1 c (List.mem_cons_of_mem a hc2)]

theorem jsReplaceAux_single (a b : Char) :
    ∀ (l : List Char) (fuel : Nat), l.length ≤ fuel →
      jsReplaceAux [a] [b] fuel l = l.map fun c => if c = a then b else c := by
  intro l
  induction l with
  | nil => intro fuel _; cases fuel <;> rfl
  | cons c cs ih =>
    intro fuel hf
    match fuel with
    | fuel + 1 =>
      simp only [jsReplaceAux]
      by_cases hca : c = a
      · rw [if_pos (by simp [List.isPrefixOf, hca])]
        simp [ih fuel (by simpa using hf), hca]
      · rw [if_neg (by simp [List.isPrefixOf]; exact fun hac => absurd hac.symm hca)]
        simp [ih fuel (by simpa using Nat.le_of_succ_le_succ (by simpa using hf)), hca]

theorem jsReplaceAll_colon_dash (l : List Char) :
    jsReplaceAll ⟨l⟩ ":" "-" = ⟨l.map fun c => if c = ':' then '-' else c⟩ := by
  have h := jsReplaceAux_single ':' '-' l l.length (le_refl _)
  simp only [jsReplaceAll]
  exact congrArg String.mk h

theorem map_dash_pad2 (n : Nat) (h : n < 100) :
    (pad2 n).map (fun c => if c = ':' then '-' else c) = pad2 n := by
  simp [pad2, if_neg (digitChar_ne_colon (n / 10) (by omega)),
    if_neg (digitChar_ne_colon (n % 10) (by omega))]

theorem map_dash_pad4 (n : Nat) (h : n < 10000) :
    (pad4 n).map (fun c => if c = ':' then '-' else c) = pad4 n := by
  simp [pad4, if_neg (digitChar_ne_colon (n / 1000) (by omega)),
    if_neg (digitChar_ne_colon (n / 100 % 10) (by omega)),
    if_neg (digitChar_ne_colon (n / 10 % 10) (by omega)),
    if_neg (digitChar_ne_colon (n % 10) (by omega))]

theorem generateBackupTimestamp_eq (ms : Nat) (h : ms < 253402300800000) :
    generateBackupTimestamp ms = ⟨backupIdChars (ms / 1000)⟩ := by
  have hsec : ms / 1000 ≤ 253402300799 := by omega
  have hdays : ms / 1000 / 86400 ≤ 2932896 := by omega
  obtain ⟨hy, hm1, hm2, hd1, hd2⟩ := civilFromDays_bounds _ hdays
  unfold generateBackupTimestamp
  rw [toISOString_decomp,
    takeWhile_append_head _ _ _ '.'
      (fun c hc => by simp [isoDateHead_chars (ms / 1000) hsec c hc]) (by decide),
    jsReplaceAll_colon_dash]
  show String.mk _ ++ String.mk ['Z'] = _
  refine congrArg String.mk ?_
  simp [isoDateHead, backupIdChars, List.append_assoc,
    map_dash_pad4 (civilFromDays (ms / 1000 / 86400)).year (by omega),
    map_dash_pad2 (civilFromDays (ms / 1000 / 86400)).month (by omega),
    map_dash_pad2 (civilFromDays (ms / 1000 / 86400)).day (by omega),
    map_dash_pad2 (ms / 1000 % 86400 / 3600) (by omega),
    map_dash_pad2 (ms / 1000 % 86400 % 3600 / 60) (by omega),
    map_dash_pad2 (ms / 1000 % 86400 % 60) (by omega)]

/-- C1 (code bug): the matcher does not implement the documented glob
rule.  The final escaping step of `matchesPattern` runs after `**` has
already been rewritten to `.*`, so the dot it produced is escaped too and
`**` ends up as the regex `\.*` — zero or more literal dots — instead of
matching any number of path segments, contradicting the code's own
comment.  Concretely, pattern `**/x` emits the regex source `\.*/x` and
fails to match the path `a/x`, which the glob rule of the specification
(and of the code comment) matches. -/
theorem C1_double_star_broken :
    globRegexSource "**/x" = "\\.*/x" ∧
    shouldExclude "a/x" ["**/x"] = false ∧
    specGlobExcludes "a/x" ["**/x"] = true :=
  ⟨by decide, by decide, by decide⟩

/-- C2 (counterexample): the claim "simulate=true returns the same
`filesCopied` and `directoriesCreated` counts as simulate=false" is false:
for a source tree holding one subdirectory and no exclusions, the dry run
reports 0 directories created while the real run reports 2 (the
destination root and the subdirectory), because the source increments
`directoriesCreated` only inside its `if (!dryRun)` branches. -/
theorem C2_counterexample :
    (copyDirectory (.cons (.dir "sub" .nil) .nil) "/p" "/b" [] true).1.directoriesCreated ≠
      (copyDirectory (.cons (.dir "sub" .nil) .nil) "/p" "/b" [] false).1.directoriesCreated := by
  decide

/-- C2 (amended): for every source tree, destination and exclusion-pattern
list, a copy with simulate=true performs no filesystem action and returns
the same `filesCopied` count and the same `skippedPaths` as the identical
copy with simulate=false, but its `directoriesCreated` count is always 0:
the directory counter increments only when not simulating. -/
theorem C2_simulation_noop (tree : EntryList) (src dst : String) (pats : List String) :
    (copyDirectory tree src dst pats true).2 = [] ∧
    (copyDirectory tree src dst pats true).1.filesCopied =
      (copyDirectory tree src dst pats false).1.filesCopied ∧
    (copyDirectory tree src dst pats true).1.skipped =
      (copyDirectory tree src dst pats false).1.skipped ∧
    (copyDirectory tree src dst pats true).1.directoriesCreated = 0 := by
  simp only [copyDirectory, reduceIte, Bool.false_eq_true]
  rw [copyEntries_dry tree "" src dst pats ⟨0, 0, 0, []⟩,
      copyEntries_shift tree "" src dst pats ⟨0, 1, 0, []⟩]
  simp [addStats, zeroStats]

/-- C3: whenever the restore destination already exists as a directory,
`restoreBackup` fails with the destination-exists error whether or not
`simulate` is set; the error result carries no filesystem action, so
nothing was written and the destination is untouched. -/
theorem C3_restore_guard (tree : EntryList) (backupPath destination : String) (dryRun : Bool) :
    restoreBackup .dirKind tree backupPath destination dryRun =
      .error (destinationExistsError destination) :=
  rfl

/-- C4: for a local target whose listing yields `n` backups and
`maxCount = m`: if `m < n`, `applyRetention` reports exactly the `n - m`
records past index `m` — the oldest by id, every kept record being at
least as new as every removed one — as removed whether or not it is
simulating, and issues the recursive deletes only when not simulating; if
`m ≥ n` it removes nothing. -/
theorem C4_retention_exact (nm base proj : String) (listing : ReadDirResult)
    (m : Nat) (dry : Bool) (bs : List BackupInfo) (ws : List String)
    (h : listBackups ⟨nm, .localKind, base⟩ proj listing = .ok (bs, ws)) :
    (bs.length ≤ m →
      applyRetention ⟨nm, .localKind, base⟩ proj listing m dry = .ok ([], [])) ∧
    (m < bs.length →
      applyRetention ⟨nm, .localKind, base⟩ proj listing m dry =
        .ok ((bs.drop m).map (·.path),
             if dry then [] else (bs.drop m).map fun b => .rmDir b.path) ∧
      (bs.drop m).length = bs.length - m ∧
      (bs.take m).length = m ∧
      ∀ x ∈ bs.take m, ∀ y ∈ bs.drop m, tsDesc x y) := by
  have hsorted := listBackups_sorted _ _ _ _ _ h
  constructor
  · intro hle
    simp only [applyRetention, h]
    rw [if_neg (by omega : ¬ bs.length > m)]
  · intro hlt
    refine ⟨?_, ?_, ?_, ?_⟩
    · simp only [applyRetention, h]
      rw [if_pos (by omega : bs.length > m)]
    · simp
    · simp; omega
    · intro x hx y hy
      have hsplit : bs.take m ++ bs.drop m = bs := List.take_append_drop m bs
      rw [← hsplit] at hsorted
      exact (List.pairwise_append.mp hsorted).2.2 x hx y hy

/-- Witness for `C4_retention_exact` at the spec's §8 scenario: five
backups `10Z..14Z`, `maxCount = 3`, not simulating — the two oldest are
removed and deleted. -/
theorem C4_witness :
    applyRetention ⟨"local", .localKind, "/b"⟩ "p"
        (.ok [⟨"2025-01-15T10-00-00Z", true⟩, ⟨"2025-01-15T11-00-00Z", true⟩,
              ⟨"2025-01-15T12-00-00Z", true⟩, ⟨"2025-01-15T13-00-00Z", true⟩,
              ⟨"2025-01-15T14-00-00Z", true⟩]) 3 false =
      .ok (["/b/p/2025-01-15T11-00-00Z", "/b/p/2025-01-15T10-00-00Z"],
           [.rmDir "/b/p/2025-01-15T11-00-00Z", .rmDir "/b/p/2025-01-15T10-00-00Z"]) := by
  rw [((C4_retention_exact "local" "/b" "p"
      (.ok [⟨"2025-01-15T10-00-00Z", true⟩, ⟨"2025-01-15T11-00-00Z", true⟩,
            ⟨"2025-01-15T12-00-00Z", true⟩, ⟨"2025-01-15T13-00-00Z", true⟩,
            ⟨"2025-01-15T14-00-00Z", true⟩]) 3 false
      [⟨"2025-01-15T14-00-00Z", "/b/p/2025-01-15T14-00-00Z", "p"⟩,
       ⟨"2025-01-15T13-00-00Z", "/b/p/2025-01-15T13-00-00Z", "p"⟩,
       ⟨"2025-01-15T12-00-00Z", "/b/p/2025-01-15T12-00-00Z", "p"⟩,
       ⟨"2025-01-15T11-00-00Z", "/b/p/2025-01-15T11-00-00Z", "p"⟩,
       ⟨"2025-01-15T10-00-00Z", "/b/p/2025-01-15T10-00-00Z", "p"⟩] [] rfl).2
      (by decide)).1]
  rfl

/-- C5: when a directory entry's relative path matches an exclusion
pattern, the walk records exactly that relative path in `skippedPaths` and
continues with the remaining entries: it never descends into the
directory, so no descendant is copied, counted, or listed individually. -/
theorem C5_excluded_directory_pruned (name : String) (children rest : EntryList)
    (rel src dst : String) (pats : List String) (dry : Bool) (stats : CopyStats)
    (h : shouldExclude (childRel rel name) pats = true) :
    copyEntries (.cons (.dir name children) rest) rel src dst pats dry stats =
      copyEntries rest rel src dst pats dry
        { stats with skipped := stats.skipped ++ [childRel rel name] } := by
  simp [copyEntries, copyOneEntry, entryName, h]

/-- Witness for `C5_excluded_directory_pruned` at the spec's §8 scenario:
excluding `node_modules` skips the whole subtree as one unit. -/
theorem C5_witness :
    shouldExclude (childRel "" "node_modules") ["node_modules"] = true ∧
    copyEntries
        (.cons (.dir "node_modules" (.cons (.file "x.json" 3) .nil))
          (.cons (.file "a.txt" 1) .nil))
        "" "/p" "/b" ["node_modules"] false zeroStats =
      copyEntries (.cons (.file "a.txt" 1) .nil) "" "/p" "/b" ["node_modules"] false
        { zeroStats with skipped := zeroStats.skipped ++ [childRel "" "node_modules"] } :=
  ⟨by decide,
   C5_excluded_directory_pruned "node_modules" _ _ "" "/p" "/b" _ false zeroStats (by decide)⟩

/-- C6: for a local target, `listBackups` answers the missing project
directory (`ENOENT`) with the empty sequence rather than an error, and
every successfully returned sequence is in non-increasing lexicographic
order of the id string, newest first. -/
theorem C6_list_order (nm base proj : String) :
    listBackups ⟨nm, .localKind, base⟩ proj .enoent = .ok ([], []) ∧
    ∀ listing bs ws,
      listBackups ⟨nm, .localKind, base⟩ proj listing = .ok (bs, ws) →
        bs.Pairwise tsDesc := by
  refine ⟨rfl, ?_⟩
  intro listing bs ws h
  exact listBackups_sorted _ _ _ _ _ h

/-- Witness for `C6_list_order` on two discovered backups listed in
ascending directory order: the result comes back newest first. -/
theorem C6_witness :
    List.Pairwise tsDesc
      [⟨"2025-01-15T14-20-00Z", "/backups/p/2025-01-15T14-20-00Z", "p"⟩,
       ⟨"2025-01-15T10-30-00Z", "/backups/p/2025-01-15T10-30-00Z", "p"⟩] :=
  (C6_list_order "local" "/backups" "p").2
    (.ok [⟨"2025-01-15T10-30-00Z", true⟩, ⟨"2025-01-15T14-20-00Z", true⟩]) _ _ rfl

/-- C7: for every wall-clock instant up to the year 10000, the generated
backup id has the fixed shape `YYYY-MM-DDTHH-mm-ssZ` — UTC fields at fixed
positions — contains no colon, and depends only on the whole second (the
subsecond part of the instant is discarded). -/
theorem C7_backup_id_format (ms : Nat) (h : ms < 253402300800000) :
    isTimestampFormat (generateBackupTimestamp ms) = true ∧
    (generateBackupTimestamp ms).toList.all (fun c => decide (c ≠ ':')) = true ∧
    generateBackupTimestamp ms = generateBackupTimestamp (1000 * (ms / 1000)) := by
  have h2 : 1000 * (ms / 1000) < 253402300800000 := by omega
  have hdiv : 1000 * (ms / 1000) / 1000 = ms / 1000 := by omega
  rw [generateBackupTimestamp_eq ms h, generateBackupTimestamp_eq _ h2, hdiv]
  have hdays : ms / 1000 / 86400 ≤ 2932896 := by omega
  obtain ⟨hy, hm1, hm2, hd1, hd2⟩ := civilFromDays_bounds _ hdays
  refine ⟨?_, ?_, rfl⟩
  · simp only [backupIdChars, pad4, pad2, isTimestampFormat, String.toList,
      List.cons_append, List.nil_append, Bool.and_eq_true, decide_eq_true_eq]
    and_intros <;>
      first
        | rfl
        | trivial
        | exact digitChar_isDigit _ (by omega)
  · simp only [backupIdChars, pad4, pad2, String.toList, List.cons_append,
      List.nil_append, List.all_cons, List.all_nil, Bool.and_eq_true,
      decide_eq_true_eq]
    and_intros <;>
      first
        | trivial
        | decide
        | exact digitChar_ne_colon _ (by omega)

/-- Witness for `C7_backup_id_format` at the instant the source code's own
comment uses, `2025-12-05T06:59:31.153Z`. -/
theorem C7_witness :
    (1764917971153 : Nat) < 253402300800000 ∧
    (isTimestampFormat (generateBackupTimestamp 1764917971153) = true ∧
     (generateBackupTimestamp 1764917971153).toList.all (fun c => decide (c ≠ ':')) = true ∧
     generateBackupTimestamp 1764917971153 =
       generateBackupTimestamp (1000 * (1764917971153 / 1000))) :=
  ⟨by decide, C7_backup_id_format 1764917971153 (by decide)⟩

/-- C8 (counterexample): the claim that restore hard-fails with the
unsupported-target error for a Remote target is false: `restoreBackup`
takes only filesystem paths and performs no target check, and the restore
command's lookup against a remote target fails with the backup-not-found
error (since the remote listing is empty), which is a different error. -/
theorem C8_counterexample :
    restoreCommandLookup ⟨"r", .remoteKind, "host:/b"⟩ "p" (.ok [])
        "2025-01-15T10-00-00Z" =
      .error (backupNotFoundError "2025-01-15T10-00-00Z" "p") ∧
    backupNotFoundError "2025-01-15T10-00-00Z" "p" ≠ remoteUnsupportedError :=
  ⟨rfl, by decide⟩

/-- C8 (amended): for every Remote target, `listBackups` is a soft
failure — empty sequence plus a warning, no error — and `createBackup` is
a hard failure raising the unsupported-target error before attempting any
copy or write; `restoreBackup` itself takes no target, and a remote
restore surfaces through the command's lookup as a backup-not-found error
instead. -/
theorem C8_remote_target (nm base proj timestamp backupName : String)
    (listing : ReadDirResult) (project : ProjectConfig) (tree : EntryList) (dry : Bool) :
    listBackups ⟨nm, .remoteKind, base⟩ proj listing = .ok ([], [remoteListWarning]) ∧
    createBackup project ⟨nm, .remoteKind, base⟩ timestamp tree dry =
      .error remoteUnsupportedError ∧
    restoreCommandLookup ⟨nm, .remoteKind, base⟩ proj listing backupName =
      .error (backupNotFoundError backupName proj) :=
  ⟨rfl, rfl, rfl⟩

/-- C9: when the destination exists as a regular file (not a directory),
the guard does not fire — `directoryExists` answers true only for
directories — and `restoreBackup` proceeds: the dry run succeeds doing
nothing, and the real run creates the destination and replays the copy. -/
theorem C9_file_destination_not_guarded (tree : EntryList) (backupPath destination : String) :
    directoryExists .fileKind = false ∧
    restoreBackup .fileKind tree backupPath destination true = .ok [] ∧
    restoreBackup .fileKind tree backupPath destination false =
      .ok (.mkdirRec destination ::
        (copyDirectory tree backupPath destination [] false).2) :=
  ⟨rfl, rfl, rfl⟩

/-- C10 (counterexample): the claim that an entry which is neither a file
nor a directory is never recorded in `skippedPaths` is false: the
exclusion check runs before the entry-kind dispatch, so a special entry
whose relative path matches a pattern is pushed onto `skippedPaths`. -/
theorem C10_counterexample :
    (copyDirectory (.cons (.special "foo.sock") .nil) "/p" "/b" ["foo.sock"] false).1.skipped =
      ["foo.sock"] := by
  decide

/-- C10 (amended): a directory entry that is neither a regular file nor a
directory and whose relative path matches no exclusion pattern is silently
ignored — not copied, not counted in any `CopyStats` field, not recorded
in `skippedPaths`, and no error is raised; if its path does match a
pattern it is recorded in `skippedPaths` like any other entry. -/
theorem C10_special_ignored (name : String) (rest : EntryList)
    (rel src dst : String) (pats : List String) (dry : Bool) (stats : CopyStats)
    (h : shouldExclude (childRel rel name) pats = false) :
    copyEntries (.cons (.special name) rest) rel src dst pats dry stats =
      copyEntries rest rel src dst pats dry stats := by
  simp [copyEntries, copyOneEntry, entryName, h]

/-- Witness for `C10_special_ignored`: a symbolic-link entry under no
matching pattern leaves the walk of its siblings unchanged. -/
theorem C10_witness :
    shouldExclude (childRel "" "link") ["node_modules"] = false ∧
    copyEntries (.cons (.special "link") (.cons (.file "a.txt" 1) .nil))
        "" "/p" "/b" ["node_modules"] false zeroStats =
      copyEntries (.cons (.file "a.txt" 1) .nil) "" "/p" "/b" ["node_modules"] false
        zeroStats :=
  ⟨by decide, C10_special_ignored "link" _ "" "/p" "/b" _ false zeroStats (by decide)⟩

end CatBackup
